import Mathlib

/-!
Verification of the dispatch backend in `backend/server.py` (food-delivery
platform).  The MongoDB-backed collections are embedded as lists kept in
insertion ("natural") order; `insert_one` appends, `find_one` / `find` scan in
natural order, and `update_one` rewrites the first matching document, reporting
Mongo's `modified_count` (zero when nothing matched *or* when the matched
document was left unchanged by the `$set`).

UUIDs and wall-clock timestamps are abstracted as a single natural number
`now` supplied by the environment to each mutating operation (the real system
draws a fresh uuid4 and `datetime.now` per request); traces supply strictly
increasing values, which makes generated ids fresh.
-/

namespace FoodDel

/-- Order status enumeration, from class `OrderStatus` in `server.py`. -/
inductive OrderStatus where
  | pending
  | assigned
  | picked_up
  | in_transit
  | delivered
  | cancelled
deriving DecidableEq

/-- Driver status enumeration, from class `DriverStatus` in `server.py`. -/
inductive DriverStatus where
  | available
  | busy
  | offline
deriving DecidableEq

/-- Customer document, from class `Customer` in `server.py`. -/
structure Customer where
  id : Nat
  name : String
  phone : String
  address : String
  created_at : Nat
deriving DecidableEq

/-- Driver document, from class `Driver` in `server.py`. -/
structure Driver where
  id : Nat
  name : String
  phone : String
  vehicle_type : String
  status : DriverStatus
  current_order_id : Option Nat
  created_at : Nat
deriving DecidableEq

/-- Restaurant document, from class `Restaurant` in `server.py`. -/
structure Restaurant where
  id : Nat
  name : String
  address : String
  phone : String
  cuisine_type : String
  created_at : Nat
deriving DecidableEq

/-- Order line item, from class `OrderItem` in `server.py`.  Python floats are
embedded as rationals. -/
structure OrderItem where
  name : String
  quantity : Int
  price : ℚ
  notes : Option String
deriving DecidableEq

/-- Order document, from class `Order` in `server.py`. -/
structure Order where
  id : Nat
  customer_id : Nat
  customer_name : String
  customer_phone : String
  delivery_address : String
  restaurant_id : Nat
  restaurant_name : String
  items : List OrderItem
  total_amount : ℚ
  status : OrderStatus
  driver_id : Option Nat
  driver_name : Option String
  notes : Option String
  created_at : Nat
  assigned_at : Option Nat
  picked_up_at : Option Nat
  delivered_at : Option Nat
deriving DecidableEq

/-- Request body for POST /customers (`CustomerCreate`). -/
structure CustomerCreate where
  name : String
  phone : String
  address : String
deriving DecidableEq

/-- Request body for POST /drivers (`DriverCreate`). -/
structure DriverCreate where
  name : String
  phone : String
  vehicle_type : String
deriving DecidableEq

/-- Request body for POST /restaurants (`RestaurantCreate`). -/
structure RestaurantCreate where
  name : String
  address : String
  phone : String
  cuisine_type : String
deriving DecidableEq

/-- Request body for POST /orders (`OrderCreate`). -/
structure OrderCreate where
  customer_name : String
  customer_phone : String
  delivery_address : String
  restaurant_name : String
  items : List OrderItem
  notes : Option String
deriving DecidableEq

/-- The four MongoDB collections used by `server.py`, in natural order. -/
structure Store where
  customers : List Customer
  drivers : List Driver
  restaurants : List Restaurant
  orders : List Order
deriving DecidableEq

/-- The empty database. -/
def Store.empty : Store := ⟨[], [], [], []⟩

/-- Outcome of a request handler: HTTP 200 with a payload, or an
`HTTPException(status_code, detail)`. -/
inductive ApiResult (α : Type) where
  | ok : α → ApiResult α
  | err : Nat → String → ApiResult α
deriving DecidableEq

/-- Whether a handler outcome is an `HTTPException`. -/
def ApiResult.isErr {α : Type} : ApiResult α → Bool
  | .ok _ => false
  | .err _ _ => true

/-- Mongo `update_one(filter, {"$set": ...})` on a collection in natural
order: rewrite the first document matching `p` with `f`, and report
`modified_count` — `0` when no document matched or when the matched document
was not actually changed, `1` otherwise. -/
def updateFirst {α : Type} [DecidableEq α] (p : α → Bool) (f : α → α) :
    List α → List α × Nat
  | [] => ([], 0)
  | x :: xs =>
    if p x then
      (f x :: xs, if f x = x then 0 else 1)
    else
      let r := updateFirst p f xs
      (x :: r.1, r.2)

/-- POST /customers (`create_customer`). -/
def create_customer (s : Store) (now : Nat) (req : CustomerCreate) :
    Customer × Store :=
  let c : Customer :=
    { id := now, name := req.name, phone := req.phone, address := req.address,
      created_at := now }
  (c, { s with customers := s.customers ++ [c] })

/-- POST /drivers (`create_driver`): new drivers start `available` with no
current order. -/
def create_driver (s : Store) (now : Nat) (req : DriverCreate) :
    Driver × Store :=
  let d : Driver :=
    { id := now, name := req.name, phone := req.phone,
      vehicle_type := req.vehicle_type, status := DriverStatus.available,
      current_order_id := none, created_at := now }
  (d, { s with drivers := s.drivers ++ [d] })

/-- POST /restaurants (`create_restaurant`). -/
def create_restaurant (s : Store) (now : Nat) (req : RestaurantCreate) :
    Restaurant × Store :=
  let r : Restaurant :=
    { id := now, name := req.name, address := req.address, phone := req.phone,
      cuisine_type := req.cuisine_type, created_at := now }
  (r, { s with restaurants := s.restaurants ++ [r] })

/-- Mongo filter `{"id": oid}` on the orders collection. -/
def orderIdP (oid : Nat) : Order → Bool := fun o => decide (o.id = oid)

/-- Mongo filter `{"id": oid, "status": "pending"}` used by the conditional
assignment write. -/
def orderPendingP (oid : Nat) : Order → Bool :=
  fun o => decide (o.id = oid ∧ o.status = OrderStatus.pending)

/-- Mongo filter `{"id": did}` on the drivers collection. -/
def driverIdP (did : Nat) : Driver → Bool := fun d => decide (d.id = did)

/-- The `$set` payload of the assignment write on the order. -/
def assignSet (driver_id : Nat) (driver_name : String) (now : Nat)
    (o : Order) : Order :=
  { o with status := OrderStatus.assigned, driver_id := some driver_id,
           driver_name := some driver_name, assigned_at := some now }

/-- The `$set` payload marking a driver busy on an order. -/
def driverBusySet (order_id : Nat) (d : Driver) : Driver :=
  { d with status := DriverStatus.busy, current_order_id := some order_id }

/-- The `$set` payload releasing a driver on delivery. -/
def driverFreeSet (d : Driver) : Driver :=
  { d with status := DriverStatus.available, current_order_id := none }

/-- The `$set` payload of `update_order_status`: the new status, plus
`picked_up_at` / `delivered_at` when the target is `picked_up` /
`delivered`. -/
def statusSet (st : OrderStatus) (now : Nat) (o : Order) : Order :=
  if st = OrderStatus.picked_up then
    { o with status := st, picked_up_at := some now }
  else if st = OrderStatus.delivered then
    { o with status := st, delivered_at := some now }
  else
    { o with status := st }

/-- PATCH /drivers/{id}/status (`update_driver_status`): `$set` the status on
the driver with the given id, 404 when `modified_count == 0`. -/
def update_driver_status (s : Store) (driver_id : Nat) (st : DriverStatus) :
    ApiResult String × Store :=
  let r := updateFirst (driverIdP driver_id)
    (fun d => { d with status := st }) s.drivers
  if r.2 = 0 then
    (ApiResult.err 404 "Driver not found", s)
  else
    (ApiResult.ok "Driver status updated", { s with drivers := r.1 })

/-- POST /orders (`create_order`): find-or-create the customer by phone and
the restaurant by name, compute `total_amount` as the sum of
`price * quantity` over the items, then insert a `pending` order with no
driver. -/
def create_order (s : Store) (now : Nat) (req : OrderCreate) : Order × Store :=
  let cres :=
    match s.customers.find? (fun c => decide (c.phone = req.customer_phone)) with
    | some c => (c.id, s.customers)
    | none =>
      let c : Customer :=
        { id := now, name := req.customer_name, phone := req.customer_phone,
          address := req.delivery_address, created_at := now }
      (c.id, s.customers ++ [c])
  let rres :=
    match s.restaurants.find? (fun r => decide (r.name = req.restaurant_name)) with
    | some r => (r.id, s.restaurants)
    | none =>
      let r : Restaurant :=
        { id := now, name := req.restaurant_name,
          address := "Address not provided", phone := "Phone not provided",
          cuisine_type := "General", created_at := now }
      (r.id, s.restaurants ++ [r])
  let total : ℚ := (req.items.map (fun it => it.price * (it.quantity : ℚ))).sum
  let o : Order :=
    { id := now, customer_id := cres.1, customer_name := req.customer_name,
      customer_phone := req.customer_phone,
      delivery_address := req.delivery_address, restaurant_id := rres.1,
      restaurant_name := req.restaurant_name, items := req.items,
      total_amount := total, status := OrderStatus.pending, driver_id := none,
      driver_name := none, notes := req.notes, created_at := now,
      assigned_at := none, picked_up_at := none, delivered_at := none }
  (o, { s with customers := cres.2, restaurants := rres.2,
               orders := s.orders ++ [o] })

/-- PATCH /orders/{order_id}/assign/{driver_id} (`assign_order_to_driver`):
404 when the driver is missing; otherwise a single conditional write
("id matches and status is still `pending`") sets status/driver/timestamp on
the order, 404 "Order not found or already assigned" when it modified
nothing, and only then a second, unguarded write marks the driver busy. -/
def assign_order_to_driver (s : Store) (now : Nat) (order_id driver_id : Nat) :
    ApiResult String × Store :=
  match s.drivers.find? (driverIdP driver_id) with
  | none => (ApiResult.err 404 "Driver not found", s)
  | some driver =>
    let r := updateFirst (orderPendingP order_id)
      (assignSet driver_id driver.name now) s.orders
    if r.2 = 0 then
      (ApiResult.err 404 "Order not found or already assigned", s)
    else
      let rd := updateFirst (driverIdP driver_id) (driverBusySet order_id)
        s.drivers
      (ApiResult.ok "Order assigned successfully",
        { s with orders := r.1, drivers := rd.1 })

/-- PATCH /orders/{order_id}/status (`update_order_status`): build the `$set`
payload (status, plus `picked_up_at` / `delivered_at` timestamps); when the
target is `delivered`, first look the order up and free its driver (skipped
silently when the order or its driver is absent); then write the order and
404 when `modified_count == 0`. -/
def update_order_status (s : Store) (now : Nat) (order_id : Nat)
    (st : OrderStatus) : ApiResult String × Store :=
  let drivers1 :=
    if st = OrderStatus.delivered then
      match s.orders.find? (orderIdP order_id) with
      | some o =>
        match o.driver_id with
        | some did => (updateFirst (driverIdP did) driverFreeSet s.drivers).1
        | none => s.drivers
      | none => s.drivers
    else s.drivers
  let r := updateFirst (orderIdP order_id) (statusSet st now) s.orders
  if r.2 = 0 then
    (ApiResult.err 404 "Order not found", { s with drivers := drivers1 })
  else
    (ApiResult.ok "Order status updated",
      { s with drivers := drivers1, orders := r.1 })

/-- GET /customers (`get_customers`): `find().to_list(1000)`. -/
def get_customers (s : Store) : List Customer := s.customers.take 1000

/-- GET /drivers (`get_drivers`): `find().to_list(1000)`. -/
def get_drivers (s : Store) : List Driver := s.drivers.take 1000

/-- GET /drivers/available (`get_available_drivers`). -/
def get_available_drivers (s : Store) : List Driver :=
  (s.drivers.filter (fun d => decide (d.status = DriverStatus.available))).take 1000

/-- GET /restaurants (`get_restaurants`): `find().to_list(1000)`. -/
def get_restaurants (s : Store) : List Restaurant := s.restaurants.take 1000

/-- GET /orders (`get_orders`): optional status filter, then
`to_list(1000)`. -/
def get_orders (s : Store) (st : Option OrderStatus) : List Order :=
  match st with
  | none => s.orders.take 1000
  | some st => (s.orders.filter (fun o => decide (o.status = st))).take 1000

/-- GET /orders/{order_id} (`get_order`). -/
def get_order (s : Store) (order_id : Nat) : ApiResult Order :=
  match s.orders.find? (orderIdP order_id) with
  | none => ApiResult.err 404 "Order not found"
  | some o => ApiResult.ok o

/-- The statuses the dashboard counts as `active`
(`$in [ASSIGNED, PICKED_UP, IN_TRANSIT]`). -/
def activeStatus : OrderStatus → Bool
  | OrderStatus.assigned => true
  | OrderStatus.picked_up => true
  | OrderStatus.in_transit => true
  | _ => false

/-- Payload of GET /dashboard/stats. -/
structure DashboardStats where
  total_orders : Nat
  pending_orders : Nat
  active_orders : Nat
  completed_orders : Nat
  total_drivers : Nat
  available_drivers : Nat
  busy_drivers : Nat
deriving DecidableEq

/-- GET /dashboard/stats (`get_dashboard_stats`): `count_documents` over the
whole collections, with no limit. -/
def get_dashboard_stats (s : Store) : DashboardStats :=
  { total_orders := s.orders.length,
    pending_orders := s.orders.countP (fun o => decide (o.status = OrderStatus.pending)),
    active_orders := s.orders.countP (fun o => activeStatus o.status),
    completed_orders := s.orders.countP (fun o => decide (o.status = OrderStatus.delivered)),
    total_drivers := s.drivers.length,
    available_drivers := s.drivers.countP (fun d => decide (d.status = DriverStatus.available)),
    busy_drivers := s.drivers.countP (fun d => decide (d.status = DriverStatus.busy)) }

/-- One inbound mutating request, for reasoning about operation sequences. -/
inductive Op where
  | createCustomer (req : CustomerCreate)
  | createDriver (req : DriverCreate)
  | createRestaurant (req : RestaurantCreate)
  | createOrder (req : OrderCreate)
  | assign (order_id driver_id : Nat)
  | updateStatus (order_id : Nat) (st : OrderStatus)
  | updateDriverStatus (driver_id : Nat) (st : DriverStatus)
deriving DecidableEq

/-- Apply one request to the store; `now` is the uuid/timestamp seed. -/
def applyOp (s : Store) (now : Nat) : Op → Store
  | Op.createCustomer req => (create_customer s now req).2
  | Op.createDriver req => (create_driver s now req).2
  | Op.createRestaurant req => (create_restaurant s now req).2
  | Op.createOrder req => (create_order s now req).2
  | Op.assign oid did => (assign_order_to_driver s now oid did).2
  | Op.updateStatus oid st => (update_order_status s now oid st).2
  | Op.updateDriverStatus did st => (update_driver_status s did st).2

/-- Run a request sequence from a store, with strictly increasing seeds. -/
def runFrom (s : Store) (now : Nat) : List Op → Store
  | [] => s
  | op :: ops => runFrom (applyOp s now op) (now + 1) ops

/-- Run a request sequence against an initially empty database. -/
def run (ops : List Op) : Store := runFrom Store.empty 0 ops

/-- The statuses in which an order is supposed to carry a driver reference:
`{assigned, picked_up, in_transit, delivered}`. -/
def statusHasDriver : OrderStatus → Bool
  | OrderStatus.assigned => true
  | OrderStatus.picked_up => true
  | OrderStatus.in_transit => true
  | OrderStatus.delivered => true
  | _ => false

/-- The order-side invariant: `driver_id` is set iff the status is in
`{assigned, picked_up, in_transit, delivered}`. -/
def storeOrderInv (s : Store) : Prop :=
  ∀ o ∈ s.orders, o.driver_id.isSome = statusHasDriver o.status

/-- The driver-side invariant for one driver against the orders collection:
`current_order_id` is set iff the driver is `busy`, and then the referenced
order exists, points back at this driver, and is in
`{assigned, picked_up, in_transit}`. -/
def driverInvB (orders : List Order) (d : Driver) : Bool :=
  match d.current_order_id with
  | none => decide (d.status ≠ DriverStatus.busy)
  | some oid =>
    decide (d.status = DriverStatus.busy) &&
      (match orders.find? (orderIdP oid) with
       | some o => decide (o.driver_id = some d.id) && activeStatus o.status
       | none => false)

/-- The driver-side invariant over the whole store. -/
def storeDriverInv (s : Store) : Prop :=
  ∀ d ∈ s.drivers, driverInvB s.orders d = true

section UpdateFirstLemmas

variable {α : Type} [DecidableEq α]

/-- `update_one` on a collection with no matching document changes nothing
and reports `modified_count = 0`. -/
theorem updateFirst_of_forall_false {p : α → Bool} {f : α → α} {l : List α}
    (h : ∀ x ∈ l, p x = false) : updateFirst p f l = (l, 0) := by
  induction l with
  | nil => rfl
  | cons x xs ih =>
    have hx : p x = false := h x (List.mem_cons_self x xs)
    simp only [updateFirst, hx, Bool.false_eq_true, if_false]
    rw [ih (fun y hy => h y (List.mem_cons_of_mem x hy))]

/-- `update_one` on a collection whose `find_one` misses changes nothing. -/
theorem updateFirst_of_find?_eq_none {p : α → Bool} {f : α → α} {l : List α}
    (h : l.find? p = none) : updateFirst p f l = (l, 0) :=
  updateFirst_of_forall_false (fun x hx => by
    have := List.find?_eq_none.mp h x hx
    simpa using this)

/-- Splitting view of `update_one`: when `find_one` hits document `y`, the
collection splits as `l₁ ++ y :: l₂` with no match in `l₁`, the write
rewrites exactly `y`, and `modified_count` records whether `y` changed. -/
theorem updateFirst_split {p : α → Bool} (f : α → α) {l : List α} {y : α}
    (h : l.find? p = some y) :
    ∃ l₁ l₂, l = l₁ ++ y :: l₂ ∧ (∀ x ∈ l₁, p x = false) ∧ p y = true ∧
      (updateFirst p f l).1 = l₁ ++ f y :: l₂ ∧
      (updateFirst p f l).2 = (if f y = y then 0 else 1) := by
  induction l with
  | nil => simp at h
  | cons x xs ih =>
    by_cases hx : p x = true
    · rw [List.find?_cons_of_pos _ hx] at h
      refine ⟨[], xs, ?_, ?_, ?_, ?_, ?_⟩ <;>
        simp_all [updateFirst]
    · have hx' : p x = false := by simpa using hx
      rw [List.find?_cons_of_neg _ (by simp [hx'])] at h
      obtain ⟨l₁, l₂, hl, h₁, hy, hu, hm⟩ := ih h
      refine ⟨x :: l₁, l₂, by simp [hl], ?_, hy, ?_, ?_⟩
      · intro z hz
        rcases List.mem_cons.mp hz with rfl | hz
        · exact hx'
        · exact h₁ z hz
      · simp only [updateFirst, hx', Bool.false_eq_true, if_false]
        simp [hu]
      · simp only [updateFirst, hx', Bool.false_eq_true, if_false]
        simp [hm]

/-- A projection that the write preserves on matching documents is preserved
across the whole collection. -/
theorem map_updateFirst {β : Type} {p : α → Bool} {f : α → α} {l : List α}
    (g : α → β) (hg : ∀ x, p x = true → g (f x) = g x) :
    ((updateFirst p f l).1).map g = l.map g := by
  induction l with
  | nil => rfl
  | cons x xs ih =>
    by_cases hx : p x = true
    · simp [updateFirst, hx, hg x hx]
    · have hx' : p x = false := by simpa using hx
      simp [updateFirst, hx', ih]

/-- Every document in the collection after `update_one` is either an original
document or the rewrite of a matching original document. -/
theorem mem_updateFirst {p : α → Bool} {f : α → α} {l : List α} {x : α}
    (h : x ∈ (updateFirst p f l).1) :
    x ∈ l ∨ ∃ y ∈ l, p y = true ∧ x = f y := by
  induction l with
  | nil => simp [updateFirst] at h
  | cons z zs ih =>
    by_cases hz : p z = true
    · simp only [updateFirst, hz, if_true] at h
      rcases List.mem_cons.mp h with rfl | h
      · exact Or.inr ⟨z, List.mem_cons_self z zs, hz, rfl⟩
      · exact Or.inl (List.mem_cons_of_mem z h)
    · have hz' : p z = false := by simpa using hz
      simp only [updateFirst, hz', Bool.false_eq_true, if_false] at h
      rcases List.mem_cons.mp h with rfl | h
      · exact Or.inl (List.mem_cons_self x zs)
      · rcases ih h with h | ⟨y, hy, hpy, hxy⟩
        · exact Or.inl (List.mem_cons_of_mem z h)
        · exact Or.inr ⟨y, List.mem_cons_of_mem z hy, hpy, hxy⟩

end UpdateFirstLemmas

section FindLemmas

variable {α : Type}

/-- `find_one` in a split collection whose prefix has no match returns the
head of the suffix when it matches. -/
theorem find?_append_cons_pos {q : α → Bool} {l₁ l₂ : List α} {y : α}
    (h₁ : ∀ x ∈ l₁, q x = false) (hy : q y = true) :
    (l₁ ++ y :: l₂).find? q = some y := by
  rw [List.find?_append, List.find?_eq_none.mpr (fun x hx => by simp [h₁ x hx]),
    Option.none_or, List.find?_cons_of_pos _ hy]

/-- `find_one` ignores a non-matching element swapped in the middle of the
collection. -/
theorem find?_append_cons_of_neg {q : α → Bool} {l₁ l₂ : List α} {y z : α}
    (hy : q y = false) (hz : q z = false) :
    (l₁ ++ y :: l₂).find? q = (l₁ ++ z :: l₂).find? q := by
  rw [List.find?_append, List.find?_append,
    List.find?_cons_of_neg _ (by simp [hy]), List.find?_cons_of_neg _ (by simp [hz])]

end FindLemmas

section SetLemmas

@[simp] theorem assignSet_id (did : Nat) (nm : String) (now : Nat) (o : Order) :
    (assignSet did nm now o).id = o.id := rfl

@[simp] theorem assignSet_status (did : Nat) (nm : String) (now : Nat) (o : Order) :
    (assignSet did nm now o).status = OrderStatus.assigned := rfl

@[simp] theorem assignSet_driver_id (did : Nat) (nm : String) (now : Nat) (o : Order) :
    (assignSet did nm now o).driver_id = some did := rfl

@[simp] theorem assignSet_total (did : Nat) (nm : String) (now : Nat) (o : Order) :
    (assignSet did nm now o).total_amount = o.total_amount := rfl

@[simp] theorem statusSet_id (st : OrderStatus) (now : Nat) (o : Order) :
    (statusSet st now o).id = o.id := by
  unfold statusSet; split <;> try split
  all_goals rfl

@[simp] theorem statusSet_status (st : OrderStatus) (now : Nat) (o : Order) :
    (statusSet st now o).status = st := by
  unfold statusSet; split <;> try split
  all_goals rfl

@[simp] theorem statusSet_driver_id (st : OrderStatus) (now : Nat) (o : Order) :
    (statusSet st now o).driver_id = o.driver_id := by
  unfold statusSet; split <;> try split
  all_goals rfl

@[simp] theorem statusSet_total (st : OrderStatus) (now : Nat) (o : Order) :
    (statusSet st now o).total_amount = o.total_amount := by
  unfold statusSet; split <;> try split
  all_goals rfl

theorem statusSet_picked_up_at (st : OrderStatus) (now : Nat) (o : Order) :
    (statusSet st now o).picked_up_at
      = if st = OrderStatus.picked_up then some now else o.picked_up_at := by
  unfold statusSet; split <;> try split
  all_goals simp_all

theorem statusSet_delivered_at (st : OrderStatus) (now : Nat) (o : Order) :
    (statusSet st now o).delivered_at
      = if st = OrderStatus.delivered then some now else o.delivered_at := by
  unfold statusSet
  by_cases h1 : st = OrderStatus.picked_up <;>
    by_cases h2 : st = OrderStatus.delivered <;> simp_all

@[simp] theorem driverBusySet_id (oid : Nat) (d : Driver) :
    (driverBusySet oid d).id = d.id := rfl

@[simp] theorem driverFreeSet_id (d : Driver) : (driverFreeSet d).id = d.id := rfl

@[simp] theorem driverFreeSet_status (d : Driver) :
    (driverFreeSet d).status = DriverStatus.available := rfl

@[simp] theorem driverFreeSet_current (d : Driver) :
    (driverFreeSet d).current_order_id = none := rfl

end SetLemmas

/-- A sample order-creation request used for concrete evaluations. -/
def roSample : OrderCreate :=
  { customer_name := "Jane", customer_phone := "p1",
    delivery_address := "addr1", restaurant_name := "Pizza Place",
    items := [], notes := none }

/-- A sample driver-creation request used for concrete evaluations. -/
def rdSample : DriverCreate :=
  { name := "Dan", phone := "d1", vehicle_type := "bike" }

/-- A sample order document used for concrete evaluations. -/
def sampleOrder : Order :=
  { id := 0, customer_id := 0, customer_name := "Jane", customer_phone := "p1",
    delivery_address := "addr1", restaurant_id := 0,
    restaurant_name := "Pizza Place", items := [], total_amount := 0,
    status := OrderStatus.pending, driver_id := none, driver_name := none,
    notes := none, created_at := 0, assigned_at := none, picked_up_at := none,
    delivered_at := none }

/-- A store holding 1001 orders, more than the list-endpoint cap. -/
def bigStore : Store :=
  { customers := [], drivers := [], restaurants := [],
    orders := List.replicate 1001 sampleOrder }

/-- Per-operation admissibility for the amended C2: a status update is
admissible when the presence of a driver on the targeted order already
matches whether the new status is one that carries a driver.  All other
operations are unrestricted. -/
def c2OpOk (s : Store) : Op → Bool
  | Op.updateStatus oid st =>
      decide (∀ o ∈ s.orders, o.id = oid → o.driver_id.isSome = statusHasDriver st)
  | _ => true

/-- Stepwise admissibility of a request sequence for the amended C2. -/
def c2LegalFrom (s : Store) (now : Nat) : List Op → Bool
  | [] => true
  | op :: ops => c2OpOk s op && c2LegalFrom (applyOp s now op) (now + 1) ops

/-- One admissible operation preserves the order-side invariant. -/
theorem storeOrderInv_applyOp {s : Store} {now : Nat} {op : Op}
    (hinv : storeOrderInv s) (hop : c2OpOk s op = true) :
    storeOrderInv (applyOp s now op) := by
  cases op with
  | createCustomer req => exact hinv
  | createRestaurant req => exact hinv
  | createDriver req => exact hinv
  | createOrder req =>
    intro o ho
    rcases List.mem_append.mp ho with h | h
    · exact hinv o h
    · rcases List.mem_singleton.mp h with rfl
      rfl
  | assign oid did =>
    intro o ho
    simp only [applyOp, assign_order_to_driver] at ho
    cases hfind : s.drivers.find? (driverIdP did) with
    | none => rw [hfind] at ho; exact hinv o ho
    | some driver =>
      rw [hfind] at ho
      simp only at ho
      by_cases hm : (updateFirst (orderPendingP oid) (assignSet did driver.name now) s.orders).2 = 0
      · rw [if_pos hm] at ho; exact hinv o ho
      · rw [if_neg hm] at ho
        simp only at ho
        rcases mem_updateFirst ho with h | ⟨y, hy, hpy, rfl⟩
        · exact hinv o h
        · rfl
  | updateStatus oid st =>
    intro o ho
    simp only [applyOp, update_order_status] at ho
    by_cases hm : (updateFirst (orderIdP oid) (statusSet st now) s.orders).2 = 0
    · rw [if_pos hm] at ho; exact hinv o ho
    · rw [if_neg hm] at ho
      simp only at ho
      rcases mem_updateFirst ho with h | ⟨y, hy, hpy, rfl⟩
      · exact hinv o h
      · have hyid : y.id = oid := by
          simpa [orderIdP] using hpy
        have := of_decide_eq_true hop y hy hyid
        simp [this]
  | updateDriverStatus did st =>
    intro o ho
    simp only [applyOp, update_driver_status] at ho
    by_cases hm : (updateFirst (driverIdP did) (fun d => { d with status := st }) s.drivers).2 = 0
    · rw [if_pos hm] at ho; exact hinv o ho
    · rw [if_neg hm] at ho; exact hinv o ho

/-- The order-side invariant is preserved along any admissible sequence. -/
theorem storeOrderInv_runFrom (ops : List Op) : ∀ s now, storeOrderInv s →
    c2LegalFrom s now ops = true → storeOrderInv (runFrom s now ops) := by
  induction ops with
  | nil => intro s now h _; exact h
  | cons op ops ih =>
    intro s now h hl
    simp only [c2LegalFrom, Bool.and_eq_true] at hl
    obtain ⟨h1, h2⟩ := hl
    exact ih (applyOp s now op) (now + 1) (storeOrderInv_applyOp h h1) h2

/-- C2 (counterexample): the claimed invariant "driver_id is set iff status
is in {assigned, picked_up, in_transit, delivered}" does not survive every
sequence of core operations — `update_order_status` accepts any target
without validation, so promoting a fresh driverless `pending` order to
`assigned` leaves `status = assigned` with `driver_id = None`. -/
theorem C2_order_invariant_counterexample : ¬ storeOrderInv
    (run [Op.createOrder roSample, Op.updateStatus 0 OrderStatus.assigned]) := by
  unfold storeOrderInv
  decide

/-- C2 (amended): starting from an empty store, after any sequence of
operations in which every `update_order_status` call targets a status whose
driver requirement matches the targeted order's current driver presence,
every order satisfies "driver_id is set iff status is in
{assigned, picked_up, in_transit, delivered}". -/
theorem C2_order_invariant_preserved (ops : List Op)
    (h : c2LegalFrom Store.empty 0 ops = true) : storeOrderInv (run ops) :=
  storeOrderInv_runFrom ops Store.empty 0
    (fun o ho => by simp [Store.empty] at ho) h

/-- A sample admissible trace covering the full delivery lifecycle. -/
def c2SampleOps : List Op :=
  [Op.createDriver rdSample, Op.createOrder roSample, Op.assign 1 0,
   Op.updateStatus 1 OrderStatus.picked_up, Op.updateStatus 1 OrderStatus.delivered]

/-- Witness for C2 (amended): the lifecycle trace is admissible and the
resulting store satisfies the order-side invariant. -/
theorem C2_order_invariant_preserved_witness :
    c2LegalFrom Store.empty 0 c2SampleOps = true ∧ storeOrderInv (run c2SampleOps) :=
  ⟨by decide, C2_order_invariant_preserved c2SampleOps (by decide)⟩

/-- C6 (code_bug evidence): `update_order_status` decides "Order not found"
from Mongo's `modified_count`, which is also zero when the order exists but
the `$set` changes nothing.  Concretely, on a store holding exactly one
`pending` order (id 0), updating that order's status to `pending` returns
404 "Order not found" although the order is present (and leaves the store
unchanged), contradicting the claim that `NotFound` occurs iff no order with
that id exists. -/
theorem C6_noop_update_reports_notfound :
    (run [Op.createOrder roSample]).orders.find? (orderIdP 0) ≠ none ∧
    (update_order_status (run [Op.createOrder roSample]) 1 0 OrderStatus.pending).1
      = ApiResult.err 404 "Order not found" ∧
    (update_order_status (run [Op.createOrder roSample]) 1 0 OrderStatus.pending).2
      = run [Op.createOrder roSample] := by
  refine ⟨?_, ?_, ?_⟩ <;> decide

/-- C7: whenever `assign_order_to_driver` fails — driver missing, order
missing, or order not `pending` — the returned store is exactly the input
store: no entity (in particular neither the targeted order nor the targeted
driver) is written. -/
theorem C7_failed_assign_leaves_store_unchanged (s : Store) (now oid did : Nat)
    (h : (assign_order_to_driver s now oid did).1.isErr = true) :
    (assign_order_to_driver s now oid did).2 = s := by
  unfold assign_order_to_driver at h ⊢
  cases hfind : s.drivers.find? (driverIdP did) with
  | none => simp [hfind]
  | some driver =>
    simp only [hfind] at h ⊢
    split
    · rfl
    · next hm =>
      simp only [if_neg hm, ApiResult.isErr] at h
      exact Bool.noConfusion h

/-- Witness for C7: assigning on the empty store fails (no driver) and
leaves the store unchanged. -/
theorem C7_failed_assign_leaves_store_unchanged_witness :
    (assign_order_to_driver Store.empty 0 0 0).1.isErr = true ∧
    (assign_order_to_driver Store.empty 0 0 0).2 = Store.empty :=
  ⟨by decide, C7_failed_assign_leaves_store_unchanged Store.empty 0 0 0 (by decide)⟩

/-- C8: a created order's `total_amount` is the sum of `price * quantity`
over its items and its status is `pending` (and it is the order appended to
the collection); neither `assign_order_to_driver` nor `update_order_status`
ever changes any order's `total_amount`. -/
theorem C8_total_amount_correct_and_immutable :
    (∀ s now req,
      (create_order s now req).1.total_amount
          = (req.items.map (fun it => it.price * (it.quantity : ℚ))).sum ∧
      (create_order s now req).1.status = OrderStatus.pending ∧
      (create_order s now req).2.orders
          = s.orders ++ [(create_order s now req).1]) ∧
    (∀ s now oid did,
      ((assign_order_to_driver s now oid did).2.orders.map (fun o => o.total_amount))
        = s.orders.map (fun o => o.total_amount)) ∧
    (∀ s now oid st,
      ((update_order_status s now oid st).2.orders.map (fun o => o.total_amount))
        = s.orders.map (fun o => o.total_amount)) := by
  refine ⟨fun s now req => ⟨rfl, rfl, rfl⟩, ?_, ?_⟩
  · intro s now oid did
    unfold assign_order_to_driver
    cases hfind : s.drivers.find? (driverIdP did) with
    | none => rfl
    | some driver =>
      simp only
      split
      · rfl
      · exact map_updateFirst _ (fun x _ => by simp)
  · intro s now oid st
    unfold update_order_status
    simp only
    split
    · rfl
    · exact map_updateFirst _ (fun x _ => by simp)

/-- C10: every list endpoint truncates to at most 1000 documents
(`to_list(1000)`), the dashboard's `total` counts the whole orders
collection, and on a store with more than 1000 orders the list result is
strictly shorter than the dashboard total. -/
theorem C10_list_cap_vs_dashboard_total :
    (∀ s st, (get_orders s st).length ≤ 1000) ∧
    (∀ s, (get_customers s).length ≤ 1000) ∧
    (∀ s, (get_drivers s).length ≤ 1000) ∧
    (∀ s, (get_available_drivers s).length ≤ 1000) ∧
    (∀ s, (get_restaurants s).length ≤ 1000) ∧
    (∀ s, (get_dashboard_stats s).total_orders = s.orders.length) ∧
    (∀ s, 1000 < s.orders.length →
      (get_orders s none).length < (get_dashboard_stats s).total_orders) := by
  refine ⟨?_, ?_, ?_, ?_, ?_, fun s => rfl, ?_⟩
  · intro s st
    cases st <;> simp [get_orders, List.length_take]
  · intro s; simp [get_customers, List.length_take]
  · intro s; simp [get_drivers, List.length_take]
  · intro s; simp [get_available_drivers, List.length_take]
  · intro s; simp [get_restaurants, List.length_take]
  · intro s h
    have hlen : (get_orders s none).length = 1000 := by
      simp [get_orders, List.length_take]
      omega
    simp [get_dashboard_stats, hlen]
    omega

/-- Witness for C10: on a store with 1001 orders, the orders list endpoint
returns strictly fewer entries than the dashboard's total count. -/
theorem C10_list_cap_vs_dashboard_total_witness :
    (get_orders bigStore none).length < (get_dashboard_stats bigStore).total_orders :=
  C10_list_cap_vs_dashboard_total.2.2.2.2.2.2 bigStore (by
    have h : bigStore.orders = List.replicate 1001 sampleOrder := rfl
    rw [h, List.length_replicate]; omega)



/-- The status-update `$set` payload touches no field other than `status`,
`picked_up_at` and `delivered_at`. -/
theorem statusSet_rest (st : OrderStatus) (now : Nat) (o : Order) :
    (statusSet st now o).customer_id = o.customer_id ∧
    (statusSet st now o).customer_name = o.customer_name ∧
    (statusSet st now o).customer_phone = o.customer_phone ∧
    (statusSet st now o).delivery_address = o.delivery_address ∧
    (statusSet st now o).restaurant_id = o.restaurant_id ∧
    (statusSet st now o).restaurant_name = o.restaurant_name ∧
    (statusSet st now o).items = o.items ∧
    (statusSet st now o).driver_name = o.driver_name ∧
    (statusSet st now o).notes = o.notes ∧
    (statusSet st now o).created_at = o.created_at ∧
    (statusSet st now o).assigned_at = o.assigned_at := by
  unfold statusSet; split <;> try split
  all_goals exact ⟨rfl, rfl, rfl, rfl, rfl, rfl, rfl, rfl, rfl, rfl, rfl⟩

/-- C5: for every existing order and every target status, `update_order_status`
stores `statusSet st now o` as the order with that id: its status becomes the
target unconditionally (no transition validation), `picked_up_at` is stamped
exactly when the target is `picked_up`, `delivered_at` exactly when the target
is `delivered`, and every other field of the order is unchanged. -/
theorem C5_status_overwrite (s : Store) (now oid : Nat) (st : OrderStatus) (o : Order)
    (h : s.orders.find? (orderIdP oid) = some o) :
    (update_order_status s now oid st).2.orders.find? (orderIdP oid)
        = some (statusSet st now o) ∧
    (statusSet st now o).status = st ∧
    (statusSet st now o).picked_up_at
        = (if st = OrderStatus.picked_up then some now else o.picked_up_at) ∧
    (statusSet st now o).delivered_at
        = (if st = OrderStatus.delivered then some now else o.delivered_at) ∧
    (statusSet st now o).id = o.id ∧
    (statusSet st now o).customer_id = o.customer_id ∧
    (statusSet st now o).customer_name = o.customer_name ∧
    (statusSet st now o).customer_phone = o.customer_phone ∧
    (statusSet st now o).delivery_address = o.delivery_address ∧
    (statusSet st now o).restaurant_id = o.restaurant_id ∧
    (statusSet st now o).restaurant_name = o.restaurant_name ∧
    (statusSet st now o).items = o.items ∧
    (statusSet st now o).total_amount = o.total_amount ∧
    (statusSet st now o).driver_id = o.driver_id ∧
    (statusSet st now o).driver_name = o.driver_name ∧
    (statusSet st now o).notes = o.notes ∧
    (statusSet st now o).created_at = o.created_at ∧
    (statusSet st now o).assigned_at = o.assigned_at := by
  obtain ⟨l₁, l₂, hl, h₁, hy, hu, hm⟩ := updateFirst_split (statusSet st now) h
  refine ⟨?_, by simp, statusSet_picked_up_at st now o, statusSet_delivered_at st now o,
    by simp, (statusSet_rest st now o).1, (statusSet_rest st now o).2.1,
    (statusSet_rest st now o).2.2.1, (statusSet_rest st now o).2.2.2.1,
    (statusSet_rest st now o).2.2.2.2.1, (statusSet_rest st now o).2.2.2.2.2.1,
    (statusSet_rest st now o).2.2.2.2.2.2.1, by simp,
    by simp, (statusSet_rest st now o).2.2.2.2.2.2.2.1,
    (statusSet_rest st now o).2.2.2.2.2.2.2.2.1,
    (statusSet_rest st now o).2.2.2.2.2.2.2.2.2.1,
    (statusSet_rest st now o).2.2.2.2.2.2.2.2.2.2⟩
  unfold update_order_status
  simp only
  by_cases hm0 : (updateFirst (orderIdP oid) (statusSet st now) s.orders).2 = 0
  · rw [if_pos hm0]
    simp only
    rw [hm] at hm0
    by_cases he : statusSet st now o = o
    · rw [he, h]
    · rw [if_neg he] at hm0; exact absurd hm0 (by simp)
  · rw [if_neg hm0]
    simp only
    rw [hu]
    exact find?_append_cons_pos h₁ (by simpa [orderIdP] using (List.find?_some h))



/-- Witness for C5: a `pending` order jumps straight to `delivered` with its
delivery timestamp stamped and no driver. -/
theorem C5_status_overwrite_witness :
    ∃ o', (update_order_status (run [Op.createOrder roSample]) 1 0
        OrderStatus.delivered).2.orders.find? (orderIdP 0) = some o' ∧
      o'.status = OrderStatus.delivered ∧ o'.delivered_at = some 1 ∧
      o'.driver_id = none := by
  obtain ⟨hfind, hstatus, hpick, hdeliv, _, _, _, _, _, _, _, _, _, hdrv, _, _, _, _⟩ :=
    C5_status_overwrite (run [Op.createOrder roSample]) 1 0 OrderStatus.delivered
      sampleOrder (by decide)
  refine ⟨statusSet OrderStatus.delivered 1 sampleOrder, hfind, hstatus, ?_, ?_⟩
  · rw [hdeliv]; simp
  · rw [hdrv]; exact rfl

/-- C3: updating an order that has an assigned driver to `delivered` succeeds,
and sets that driver's status to `available` with `current_order_id` cleared
when a driver record with that id exists; when no such driver record exists
the drivers collection is untouched (sub-step skipped silently) and the call
still succeeds.  The timestamp hypothesis reflects that the wall clock always
differs from any stored `delivered_at`. -/
theorem C3_delivered_releases_driver (s : Store) (now oid did : Nat)
    (h1 : (s.orders.find? (orderIdP oid)).map (fun o => o.driver_id)
        = some (some did))
    (h2 : (s.orders.find? (orderIdP oid)).map (fun o => o.delivered_at)
        ≠ some (some now)) :
    (update_order_status s now oid OrderStatus.delivered).1
        = ApiResult.ok "Order status updated" ∧
    ((s.drivers.find? (driverIdP did)).isSome = true →
      ∃ d', (update_order_status s now oid OrderStatus.delivered).2.drivers.find?
            (driverIdP did) = some d' ∧
        d'.status = DriverStatus.available ∧ d'.current_order_id = none) ∧
    (s.drivers.find? (driverIdP did) = none →
      (update_order_status s now oid OrderStatus.delivered).2.drivers = s.drivers) := by
  obtain ⟨o, ho, hdid⟩ := Option.map_eq_some'.mp h1
  have hdel : o.delivered_at ≠ some now := by
    intro hc
    exact h2 (by rw [ho]; simp [hc])
  have hne : statusSet OrderStatus.delivered now o ≠ o := by
    intro hc
    have hfield := congrArg Order.delivered_at hc
    rw [statusSet_delivered_at] at hfield
    simp at hfield
    exact hdel hfield.symm
  obtain ⟨l₁, l₂, hl, hpre, hy, hu, hm⟩ :=
    updateFirst_split (statusSet OrderStatus.delivered now) ho
  have hm1 : (updateFirst (orderIdP oid) (statusSet OrderStatus.delivered now)
      s.orders).2 ≠ 0 := by
    rw [hm, if_neg hne]; simp
  unfold update_order_status
  simp only [if_neg hm1, ho, hdid, reduceCtorEq, if_pos]
  refine ⟨by trivial, ?_, ?_⟩
  · intro hds
    obtain ⟨d, hd⟩ := Option.isSome_iff_exists.mp hds
    obtain ⟨d₁, d₂, hdl, hdpre, hdy, hdu, hdm⟩ := updateFirst_split driverFreeSet hd
    refine ⟨driverFreeSet d, ?_, rfl, rfl⟩
    simp only [hdu]
    exact find?_append_cons_pos hdpre
      (by simpa [driverIdP] using (List.find?_some hd))
  · intro hnone
    simp [updateFirst_of_find?_eq_none hnone]



/-- Witness for C3: deliver an assigned order; the busy driver is released. -/
theorem C3_delivered_releases_driver_witness :
    (update_order_status (run [Op.createDriver rdSample, Op.createOrder roSample,
        Op.assign 1 0]) 3 1 OrderStatus.delivered).1
      = ApiResult.ok "Order status updated" ∧
    ∃ d', (update_order_status (run [Op.createDriver rdSample, Op.createOrder roSample,
        Op.assign 1 0]) 3 1 OrderStatus.delivered).2.drivers.find? (driverIdP 0)
        = some d' ∧
      d'.status = DriverStatus.available ∧ d'.current_order_id = none := by
  have h := C3_delivered_releases_driver (run [Op.createDriver rdSample, Op.createOrder roSample,
    Op.assign 1 0]) 3 1 0 (by decide) (by decide)
  exact ⟨h.1, h.2.1 (by decide)⟩




/-- The customer document `create_order` inserts when the phone is unseen. -/
def autoCustomer (now : Nat) (req : OrderCreate) : Customer :=
  { id := now, name := req.customer_name, phone := req.customer_phone,
    address := req.delivery_address, created_at := now }

/-- The restaurant document `create_order` inserts when the name is unseen
(address/phone/cuisine placeholders, as in the source). -/
def autoRestaurant (now : Nat) (req : OrderCreate) : Restaurant :=
  { id := now, name := req.restaurant_name, address := "Address not provided",
    phone := "Phone not provided", cuisine_type := "General", created_at := now }

/-- When a customer with the request's phone exists, `create_order` reuses its
id and inserts no customer. -/
theorem create_order_customer_found {s : Store} {req : OrderCreate} {c : Customer}
    (now : Nat)
    (h : s.customers.find? (fun x => decide (x.phone = req.customer_phone)) = some c) :
    (create_order s now req).1.customer_id = c.id ∧
    (create_order s now req).2.customers = s.customers := by
  unfold create_order
  rw [h]
  exact ⟨rfl, rfl⟩

/-- When no customer with the request's phone exists, `create_order` inserts
one with the fresh id. -/
theorem create_order_customer_new {s : Store} {req : OrderCreate} (now : Nat)
    (h : s.customers.find? (fun x => decide (x.phone = req.customer_phone)) = none) :
    (create_order s now req).1.customer_id = now ∧
    (create_order s now req).2.customers = s.customers ++ [autoCustomer now req] := by
  unfold create_order
  rw [h]
  exact ⟨rfl, rfl⟩

/-- After any `create_order`, a customer with the request's phone is findable
and the created order references it. -/
theorem create_order_customer_spec (s : Store) (now : Nat) (req : OrderCreate) :
    ∃ c, (create_order s now req).2.customers.find?
        (fun x => decide (x.phone = req.customer_phone)) = some c ∧
      (create_order s now req).1.customer_id = c.id := by
  cases h : s.customers.find? (fun x => decide (x.phone = req.customer_phone)) with
  | some c =>
    have hcf := create_order_customer_found now h
    exact ⟨c, by rw [hcf.2, h], hcf.1⟩
  | none =>
    have hcf := create_order_customer_new now h
    refine ⟨autoCustomer now req, ?_, hcf.1⟩
    rw [hcf.2, List.find?_append, List.find?_eq_none.mpr (fun x hx => by
      have := List.find?_eq_none.mp h x hx
      simpa using this)]
    simp [autoCustomer]

/-- When a restaurant with the request's name exists, `create_order` reuses
its id and inserts no restaurant. -/
theorem create_order_restaurant_found {s : Store} {req : OrderCreate} {r : Restaurant}
    (now : Nat)
    (h : s.restaurants.find? (fun x => decide (x.name = req.restaurant_name)) = some r) :
    (create_order s now req).1.restaurant_id = r.id ∧
    (create_order s now req).2.restaurants = s.restaurants := by
  unfold create_order
  rw [h]
  cases s.customers.find? (fun x => decide (x.phone = req.customer_phone)) <;>
    exact ⟨rfl, rfl⟩

/-- When no restaurant with the request's name exists, `create_order` inserts
one with the fresh id. -/
theorem create_order_restaurant_new {s : Store} {req : OrderCreate} (now : Nat)
    (h : s.restaurants.find? (fun x => decide (x.name = req.restaurant_name)) = none) :
    (create_order s now req).1.restaurant_id = now ∧
    (create_order s now req).2.restaurants = s.restaurants ++ [autoRestaurant now req] := by
  unfold create_order
  rw [h]
  cases s.customers.find? (fun x => decide (x.phone = req.customer_phone)) <;>
    exact ⟨rfl, rfl⟩

/-- After any `create_order`, a restaurant with the request's name is findable
and the created order references it. -/
theorem create_order_restaurant_spec (s : Store) (now : Nat) (req : OrderCreate) :
    ∃ r, (create_order s now req).2.restaurants.find?
        (fun x => decide (x.name = req.restaurant_name)) = some r ∧
      (create_order s now req).1.restaurant_id = r.id := by
  cases h : s.restaurants.find? (fun x => decide (x.name = req.restaurant_name)) with
  | some r =>
    have hrf := create_order_restaurant_found now h
    exact ⟨r, by rw [hrf.2, h], hrf.1⟩
  | none =>
    have hrf := create_order_restaurant_new now h
    refine ⟨autoRestaurant now req, ?_, hrf.1⟩
    rw [hrf.2, List.find?_append, List.find?_eq_none.mpr (fun x hx => by
      have := List.find?_eq_none.mp h x hx
      simpa using this)]
    simp [autoRestaurant]

/-- `create_order` appends exactly the returned order. -/
theorem create_order_orders (s : Store) (now : Nat) (req : OrderCreate) :
    (create_order s now req).2.orders = s.orders ++ [(create_order s now req).1] := rfl

/-- C9: two consecutive order creations with the same `customer_phone`
reference the same customer id and create no second customer; with the same
`restaurant_name` (delivery addresses unconstrained) they reference the same
restaurant id and create no second restaurant; and the two calls add exactly
two orders. -/
theorem C9_create_order_dedup (s : Store) (n1 n2 : Nat) (r1 r2 : OrderCreate) :
    (r2.customer_phone = r1.customer_phone →
      (create_order (create_order s n1 r1).2 n2 r2).1.customer_id
          = (create_order s n1 r1).1.customer_id ∧
      (create_order (create_order s n1 r1).2 n2 r2).2.customers.length
          = (create_order s n1 r1).2.customers.length) ∧
    (r2.restaurant_name = r1.restaurant_name →
      (create_order (create_order s n1 r1).2 n2 r2).1.restaurant_id
          = (create_order s n1 r1).1.restaurant_id ∧
      (create_order (create_order s n1 r1).2 n2 r2).2.restaurants.length
          = (create_order s n1 r1).2.restaurants.length) ∧
    (create_order (create_order s n1 r1).2 n2 r2).2.orders.length
        = s.orders.length + 2 := by
  refine ⟨?_, ?_, ?_⟩
  · intro hphone
    obtain ⟨c, hc, hcid⟩ := create_order_customer_spec s n1 r1
    rw [← hphone] at hc
    have hf := @create_order_customer_found (create_order s n1 r1).2 r2 c n2 hc
    exact ⟨hf.1.trans hcid.symm, by rw [hf.2]⟩
  · intro hname
    obtain ⟨r, hr, hrid⟩ := create_order_restaurant_spec s n1 r1
    rw [← hname] at hr
    have hf := @create_order_restaurant_found (create_order s n1 r1).2 r2 r n2 hr
    exact ⟨hf.1.trans hrid.symm, by rw [hf.2]⟩
  · rw [create_order_orders, create_order_orders, List.length_append,
      List.length_append]
    simp



/-- A second sample order request: same phone and restaurant name as
`roSample` but a different delivery address. -/
def roSample2 : OrderCreate :=
  { customer_name := "Jane", customer_phone := "p1",
    delivery_address := "addr2", restaurant_name := "Pizza Place",
    items := [], notes := none }

/-- Witness for C9: two concrete creations sharing phone and restaurant name
but differing in address collapse to one customer and one restaurant. -/
theorem C9_create_order_dedup_witness :
    (create_order (create_order Store.empty 0 roSample).2 1 roSample2).1.customer_id
        = (create_order Store.empty 0 roSample).1.customer_id ∧
    (create_order (create_order Store.empty 0 roSample).2 1 roSample2).2.customers.length
        = (create_order Store.empty 0 roSample).2.customers.length ∧
    (create_order (create_order Store.empty 0 roSample).2 1 roSample2).1.restaurant_id
        = (create_order Store.empty 0 roSample).1.restaurant_id ∧
    (create_order (create_order Store.empty 0 roSample).2 1 roSample2).2.restaurants.length
        = (create_order Store.empty 0 roSample).2.restaurants.length := by
  have h := C9_create_order_dedup Store.empty 0 1 roSample roSample2
  obtain ⟨h1, h2⟩ := h.1 (by decide)
  obtain ⟨h3, h4⟩ := h.2.1 (by decide)
  exact ⟨h1, h2, h3, h4⟩




/-- `find_one` with a stronger filter still returns the same document when
that document satisfies the stronger filter and the stronger filter implies
the weaker one. -/
theorem find?_stronger {α : Type} {p q : α → Bool} {l : List α} {y : α}
    (h : l.find? p = some y) (hy : q y = true)
    (himp : ∀ x, q x = true → p x = true) : l.find? q = some y := by
  induction l with
  | nil => simp at h
  | cons z zs ih =>
    by_cases hp : p z = true
    · rw [List.find?_cons_of_pos _ hp] at h
      obtain rfl : z = y := by simpa using h
      rw [List.find?_cons_of_pos _ hy]
    · have hq : ¬ q z = true := fun hqz => hp (himp z hqz)
      rw [List.find?_cons_of_neg _ hp] at h
      rw [List.find?_cons_of_neg _ hq]
      exact ih h

/-- In a collection with pairwise distinct keys, the documents around a split
point all have keys different from the split document's key. -/
theorem nodup_key_split {α β : Type} (k : α → β) {l₁ l₂ : List α} {y : α}
    (hn : ((l₁ ++ y :: l₂).map k).Nodup) :
    (∀ x ∈ l₁, k x ≠ k y) ∧ (∀ x ∈ l₂, k x ≠ k y) := by
  rw [List.map_append, List.map_cons, List.nodup_append] at hn
  obtain ⟨h1, h2, hdisj⟩ := hn
  rw [List.nodup_cons] at h2
  constructor
  · intro x hx hk
    exact hdisj (List.mem_map_of_mem k hx)
      (by rw [hk]; exact List.mem_cons_self _ _)
  · intro x hx hk
    exact h2.1 (hk ▸ List.mem_map_of_mem k hx)

/-- `update_one` with a write that does not change a filter's verdict
preserves whether `find_one` with that filter hits. -/
theorem find?_isSome_updateFirst {α : Type} [DecidableEq α] {p q : α → Bool}
    {f : α → α} (hq : ∀ x, q (f x) = q x) (l : List α) :
    (((updateFirst p f l).1).find? q).isSome = (l.find? q).isSome := by
  induction l with
  | nil => rfl
  | cons z zs ih =>
    by_cases hp : p z = true
    · simp only [updateFirst, hp, if_true]
      cases hqz : q z with
      | true =>
        rw [List.find?_cons_of_pos _ (by rw [hq z]; exact hqz),
          List.find?_cons_of_pos _ hqz]
        rfl
      | false =>
        rw [List.find?_cons_of_neg _ (by simp [hq z, hqz]),
          List.find?_cons_of_neg _ (by simp [hqz])]
    · have hp' : p z = false := by simpa using hp
      simp only [updateFirst, hp', Bool.false_eq_true, if_false]
      cases hqz : q z with
      | true =>
        rw [List.find?_cons_of_pos _ hqz, List.find?_cons_of_pos _ hqz]
      | false =>
        rw [List.find?_cons_of_neg _ (by simp [hqz]),
          List.find?_cons_of_neg _ (by simp [hqz])]
        exact ih

/-- When no order matches "id and still pending", `assign_order_to_driver`
reports the Conflict-style 404 and leaves the store untouched. -/
theorem assign_conflict_of_no_pending {s : Store} {now oid did : Nat}
    {d : Driver} (hd : s.drivers.find? (driverIdP did) = some d)
    (hall : ∀ x ∈ s.orders, orderPendingP oid x = false) :
    assign_order_to_driver s now oid did
      = (ApiResult.err 404 "Order not found or already assigned", s) := by
  unfold assign_order_to_driver
  rw [hd]
  simp [updateFirst_of_forall_false hall]

/-- C1 (amended): for a `pending` order (unique ids) and two driver ids that
both exist, running two assign calls in sequence makes exactly the first
succeed; the second reports the Conflict-style 404 "Order not found or
already assigned", writes nothing (the whole store is unchanged, so in
particular no driver write happens), and the order ends `assigned` to the
first call's driver. -/
theorem C1_assign_exclusive (s : Store) (n1 n2 oid did1 did2 : Nat)
    (hnodup : (s.orders.map (fun o => o.id)).Nodup)
    (horder : (s.orders.find? (orderIdP oid)).map (fun o => o.status)
        = some OrderStatus.pending)
    (hd1 : (s.drivers.find? (driverIdP did1)).isSome = true)
    (hd2 : (s.drivers.find? (driverIdP did2)).isSome = true) :
    (assign_order_to_driver s n1 oid did1).1
        = ApiResult.ok "Order assigned successfully" ∧
    (assign_order_to_driver (assign_order_to_driver s n1 oid did1).2 n2 oid did2).1
        = ApiResult.err 404 "Order not found or already assigned" ∧
    (assign_order_to_driver (assign_order_to_driver s n1 oid did1).2 n2 oid did2).2
        = (assign_order_to_driver s n1 oid did1).2 ∧
    ((assign_order_to_driver s n1 oid did1).2.orders.find? (orderIdP oid)).map
        (fun o => (o.status, o.driver_id))
        = some (OrderStatus.assigned, some did1) := by
  obtain ⟨o, ho, hst⟩ := Option.map_eq_some'.mp horder
  obtain ⟨d1, hd1f⟩ := Option.isSome_iff_exists.mp hd1
  have hoid : o.id = oid := by simpa [orderIdP] using List.find?_some ho
  have hyq : orderPendingP oid o = true := by
    simp [orderPendingP]
    exact ⟨hoid, hst⟩
  have hop : s.orders.find? (orderPendingP oid) = some o :=
    find?_stronger ho hyq (fun x hx => by
      simp [orderPendingP] at hx
      simp [orderIdP, hx.1])
  obtain ⟨l₁, l₂, hl, hpre, _, hu, hm⟩ :=
    updateFirst_split (assignSet did1 d1.name n1) hop
  have hne : assignSet did1 d1.name n1 o ≠ o := by
    intro hc
    have hcs := congrArg Order.status hc
    rw [assignSet_status, hst] at hcs
    exact OrderStatus.noConfusion hcs
  have hm1 : (updateFirst (orderPendingP oid) (assignSet did1 d1.name n1)
      s.orders).2 ≠ 0 := by
    rw [hm, if_neg hne]; simp
  have hs1o : (assign_order_to_driver s n1 oid did1).2.orders
      = (updateFirst (orderPendingP oid) (assignSet did1 d1.name n1)
          s.orders).1 := by
    unfold assign_order_to_driver
    rw [hd1f]
    simp only [if_neg hm1]
  have hs1d : (assign_order_to_driver s n1 oid did1).2.drivers
      = (updateFirst (driverIdP did1) (driverBusySet oid) s.drivers).1 := by
    unfold assign_order_to_driver
    rw [hd1f]
    simp only [if_neg hm1]
  have hr1 : (assign_order_to_driver s n1 oid did1).1
      = ApiResult.ok "Order assigned successfully" := by
    unfold assign_order_to_driver
    rw [hd1f]
    simp only [if_neg hm1]
  rw [hl] at hnodup
  have hkeys := nodup_key_split (fun o : Order => o.id) hnodup
  have hfind1 : (assign_order_to_driver s n1 oid did1).2.orders.find?
      (orderIdP oid) = some (assignSet did1 d1.name n1 o) := by
    rw [hs1o, hu]
    exact find?_append_cons_pos
      (fun x hx => by
        have := hkeys.1 x hx
        simp [orderIdP]
        intro hxe
        exact absurd (hxe.trans hoid.symm) this)
      (by simp [orderIdP, hoid])
  have hd2' : ((assign_order_to_driver s n1 oid did1).2.drivers.find?
      (driverIdP did2)).isSome = true := by
    rw [hs1d]
    rw [find?_isSome_updateFirst (fun x => by simp [driverIdP])]
    exact hd2
  obtain ⟨d2, hd2f⟩ := Option.isSome_iff_exists.mp hd2'
  have hall : ∀ x ∈ (assign_order_to_driver s n1 oid did1).2.orders,
      orderPendingP oid x = false := by
    rw [hs1o, hu]
    intro x hx
    rcases List.mem_append.mp hx with hx1 | hx2
    · exact hpre x hx1
    · rcases List.mem_cons.mp hx2 with rfl | hx3
      · simp [orderPendingP]
      · have hne2 := hkeys.2 x hx3
        simp [orderPendingP]
        intro hxe
        exact absurd (hxe.trans hoid.symm) hne2
  refine ⟨hr1, ?_, ?_, ?_⟩
  · rw [assign_conflict_of_no_pending hd2f hall]
  · rw [assign_conflict_of_no_pending hd2f hall]
  · rw [hfind1]
    rfl


/-- C1 (counterexample to the claim as stated): with arbitrary driver ids the
dichotomy "exactly one success, the other Conflict" fails — on a store with
one pending order and no drivers, both assign calls fail with 404 "Driver
not found" (which is not the Conflict signal), no call succeeds, and the
order remains `pending`. -/
theorem C1_assign_exclusive_counterexample :
    ((run [Op.createOrder roSample]).orders.find? (orderIdP 0)).map
        (fun o => o.status) = some OrderStatus.pending ∧
    (assign_order_to_driver (run [Op.createOrder roSample]) 1 0 5).1
        = ApiResult.err 404 "Driver not found" ∧
    (assign_order_to_driver
        (assign_order_to_driver (run [Op.createOrder roSample]) 1 0 5).2
        2 0 7).1 = ApiResult.err 404 "Driver not found" ∧
    ((assign_order_to_driver
        (assign_order_to_driver (run [Op.createOrder roSample]) 1 0 5).2
        2 0 7).2.orders.find? (orderIdP 0)).map (fun o => o.status)
      = some OrderStatus.pending := by
  refine ⟨?_, ?_, ?_, ?_⟩ <;> decide

/-- Witness for C1 (amended): two drivers and one pending order; the first
assign wins, the second gets the Conflict-style 404, and the order is
assigned to driver 0. -/
theorem C1_assign_exclusive_witness :
    (assign_order_to_driver (run [Op.createDriver rdSample, Op.createDriver rdSample,
        Op.createOrder roSample]) 3 2 0).1
      = ApiResult.ok "Order assigned successfully" ∧
    (assign_order_to_driver (assign_order_to_driver (run [Op.createDriver rdSample,
        Op.createDriver rdSample, Op.createOrder roSample]) 3 2 0).2 4 2 1).1
      = ApiResult.err 404 "Order not found or already assigned" ∧
    ((assign_order_to_driver (run [Op.createDriver rdSample, Op.createDriver rdSample,
        Op.createOrder roSample]) 3 2 0).2.orders.find? (orderIdP 2)).map
        (fun o => (o.status, o.driver_id))
      = some (OrderStatus.assigned, some 0) := by
  have h := C1_assign_exclusive (run [Op.createDriver rdSample, Op.createDriver rdSample,
    Op.createOrder roSample]) 3 4 2 0 1 (by decide) (by decide) (by decide) (by decide)
  exact ⟨h.1, h.2.1, h.2.2.2⟩




/-- `find_one` hits are stable under appending documents. -/
theorem find?_append_left {α : Type} {q : α → Bool} {l l' : List α} {y : α}
    (h : l.find? q = some y) : (l ++ l').find? q = some y := by
  rw [List.find?_append, h]
  rfl

/-- Inserting a document with a fresh key keeps keys pairwise distinct. -/
theorem nodup_append_fresh {α β : Type} (k : α → β) {l : List α} {a : α}
    (hn : (l.map k).Nodup) (hf : ∀ x ∈ l, k x ≠ k a) :
    ((l ++ [a]).map k).Nodup := by
  rw [List.map_append, List.map_singleton, List.nodup_append]
  refine ⟨hn, List.nodup_singleton _, ?_⟩
  intro b hb hmem
  obtain ⟨x, hx, rfl⟩ := List.mem_map.mp hb
  rw [List.mem_singleton] at hmem
  exact hf x hx hmem

/-- A pointwise key property transfers across collections with equal key
sequences. -/
theorem bound_of_map_key_eq {α β : Type} {k : α → β} {l l' : List α}
    (r : β → Prop) (hmap : l'.map k = l.map k) (hb : ∀ x ∈ l, r (k x)) :
    ∀ x ∈ l', r (k x) := by
  intro x hx
  have hmem : k x ∈ l.map k := hmap ▸ List.mem_map_of_mem k hx
  obtain ⟨z, hz, hkz⟩ := List.mem_map.mp hmem
  exact hkz ▸ hb z hz

/-- Unfolding of the driver invariant for a driver with no current order. -/
theorem driverInvB_none_iff {O : List Order} {d : Driver}
    (hc : d.current_order_id = none) :
    (driverInvB O d = true) ↔ d.status ≠ DriverStatus.busy := by
  unfold driverInvB
  rw [hc]
  simp

/-- Unfolding of the driver invariant for a driver holding an order
reference. -/
theorem driverInvB_some_iff {O : List Order} {d : Driver} {oid : Nat}
    (hc : d.current_order_id = some oid) :
    (driverInvB O d = true) ↔ (d.status = DriverStatus.busy ∧
      ∃ o, O.find? (orderIdP oid) = some o ∧ o.driver_id = some d.id ∧
        activeStatus o.status = true) := by
  unfold driverInvB
  rw [hc]
  cases h : O.find? (orderIdP oid) with
  | none => simp [h]
  | some o => simp [h]

/-- The orders collection after `update_order_status`: unchanged when the
write modified nothing, else the rewrite of the first matching order. -/
theorem update_order_status_orders (s : Store) (now oid : Nat) (st : OrderStatus) :
    (update_order_status s now oid st).2.orders
      = (if (updateFirst (orderIdP oid) (statusSet st now) s.orders).2 = 0
         then s.orders
         else (updateFirst (orderIdP oid) (statusSet st now) s.orders).1) := by
  unfold update_order_status
  by_cases h : (updateFirst (orderIdP oid) (statusSet st now) s.orders).2 = 0 <;>
    simp [h]

/-- The drivers collection after `update_order_status`: the release write
happens exactly on target `delivered` for an existing order with a driver
reference. -/
theorem update_order_status_drivers (s : Store) (now oid : Nat) (st : OrderStatus) :
    (update_order_status s now oid st).2.drivers
      = (if st = OrderStatus.delivered then
          match s.orders.find? (orderIdP oid) with
          | some o =>
            match o.driver_id with
            | some did => (updateFirst (driverIdP did) driverFreeSet s.drivers).1
            | none => s.drivers
          | none => s.drivers
        else s.drivers) := by
  unfold update_order_status
  by_cases h : (updateFirst (orderIdP oid) (statusSet st now) s.orders).2 = 0 <;>
    simp [h]



/-- Admissibility for the amended C4: status updates may target only the
driver-carrying statuses (excluding `pending`/`cancelled`), and the raw
driver-status endpoint is excluded (it can set a busy driver's status
without touching `current_order_id`). -/
def c4OpOk : Op → Bool
  | Op.updateStatus _ st => statusHasDriver st
  | Op.updateDriverStatus _ _ => false
  | _ => true

/-- Induction invariant for the amended C4: distinct ids (guaranteed by
uuid4 in the source, by freshness of `now` here), id bounds, and the
driver-side invariant. -/
def C4Aux (s : Store) (now : Nat) : Prop :=
  (s.orders.map (fun o => o.id)).Nodup ∧
  (s.drivers.map (fun d => d.id)).Nodup ∧
  (∀ o ∈ s.orders, o.id < now) ∧
  (∀ d ∈ s.drivers, d.id < now) ∧
  storeDriverInv s

/-- One admissible operation preserves the C4 induction invariant. -/
theorem c4Aux_applyOp {s : Store} {now : Nat} {op : Op}
    (h : C4Aux s now) (hop : c4OpOk op = true) :
    C4Aux (applyOp s now op) (now + 1) := by
  obtain ⟨hnO, hnD, hbO, hbD, hinv⟩ := h
  cases op with
  | createCustomer req =>
    exact ⟨hnO, hnD, fun o ho => Nat.lt_succ_of_lt (hbO o ho),
      fun d hd => Nat.lt_succ_of_lt (hbD d hd), hinv⟩
  | createRestaurant req =>
    exact ⟨hnO, hnD, fun o ho => Nat.lt_succ_of_lt (hbO o ho),
      fun d hd => Nat.lt_succ_of_lt (hbD d hd), hinv⟩
  | createDriver req =>
    refine ⟨hnO, ?_, fun o ho => Nat.lt_succ_of_lt (hbO o ho), ?_, ?_⟩
    · exact nodup_append_fresh (fun d : Driver => d.id) hnD
        (fun x hx => Nat.ne_of_lt (hbD x hx))
    · intro d hd
      rcases List.mem_append.mp hd with hd | hd
      · exact Nat.lt_succ_of_lt (hbD d hd)
      · rw [List.mem_singleton] at hd
        subst hd
        exact Nat.lt_succ_self now
    · intro d hd
      rcases List.mem_append.mp hd with hd | hd
      · exact hinv d hd
      · rw [List.mem_singleton] at hd
        subst hd
        exact (driverInvB_none_iff rfl).mpr (fun hcon => DriverStatus.noConfusion hcon)
  | createOrder req =>
    refine ⟨?_, hnD, ?_, fun d hd => Nat.lt_succ_of_lt (hbD d hd), ?_⟩
    · exact nodup_append_fresh (fun o : Order => o.id) hnO
        (fun x hx => Nat.ne_of_lt (hbO x hx))
    · intro o ho
      rcases List.mem_append.mp ho with ho | ho
      · exact Nat.lt_succ_of_lt (hbO o ho)
      · rw [List.mem_singleton] at ho
        subst ho
        exact Nat.lt_succ_self now
    · intro d hd
      cases hc : d.current_order_id with
      | none => exact (driverInvB_none_iff hc).mpr ((driverInvB_none_iff hc).mp (hinv d hd))
      | some oid =>
        obtain ⟨hbusy, o', hf, hdrv, hact⟩ := (driverInvB_some_iff hc).mp (hinv d hd)
        exact (driverInvB_some_iff hc).mpr ⟨hbusy, o', find?_append_left hf, hdrv, hact⟩
  | updateDriverStatus did st => simp [c4OpOk] at hop
  | assign oid did =>
    simp only [applyOp]
    cases hfind : s.drivers.find? (driverIdP did) with
    | none =>
      have hs : (assign_order_to_driver s now oid did).2 = s := by
        unfold assign_order_to_driver
        rw [hfind]
      rw [hs]
      exact ⟨hnO, hnD, fun o ho => Nat.lt_succ_of_lt (hbO o ho),
        fun d hd => Nat.lt_succ_of_lt (hbD d hd), hinv⟩
    | some d0 =>
      by_cases hm : (updateFirst (orderPendingP oid)
          (assignSet did d0.name now) s.orders).2 = 0
      · have hs : (assign_order_to_driver s now oid did).2 = s := by
          unfold assign_order_to_driver
          rw [hfind]
          simp [hm]
        rw [hs]
        exact ⟨hnO, hnD, fun o ho => Nat.lt_succ_of_lt (hbO o ho),
          fun d hd => Nat.lt_succ_of_lt (hbD d hd), hinv⟩
      · have hso : (assign_order_to_driver s now oid did).2.orders
            = (updateFirst (orderPendingP oid) (assignSet did d0.name now)
                s.orders).1 := by
          unfold assign_order_to_driver
          rw [hfind]
          simp only [if_neg hm]
        have hsd : (assign_order_to_driver s now oid did).2.drivers
            = (updateFirst (driverIdP did) (driverBusySet oid) s.drivers).1 := by
          unfold assign_order_to_driver
          rw [hfind]
          simp only [if_neg hm]
        have hfo : ∃ y, s.orders.find? (orderPendingP oid) = some y := by
          cases hfo2 : s.orders.find? (orderPendingP oid) with
          | none =>
            exact absurd (congrArg Prod.snd (updateFirst_of_find?_eq_none
              (f := assignSet did d0.name now) hfo2)) hm
          | some y => exact ⟨y, rfl⟩
        obtain ⟨y, hfo⟩ := hfo
        obtain ⟨l₁, l₂, hl, hpre, hyP, hu, _⟩ :=
          updateFirst_split (assignSet did d0.name now) hfo
        have hyid : y.id = oid ∧ y.status = OrderStatus.pending := by
          simpa [orderPendingP] using hyP
        obtain ⟨d₁, d₂, hdl, hdpre, hdy, hdu, _⟩ :=
          updateFirst_split (driverBusySet oid) hfind
        have hd0id : d0.id = did := by
          simpa [driverIdP] using List.find?_some hfind
        have hmapO : ((updateFirst (orderPendingP oid)
            (assignSet did d0.name now) s.orders).1).map (fun o : Order => o.id)
            = s.orders.map (fun o => o.id) :=
          map_updateFirst _ (fun x _ => by simp)
        have hmapD : ((updateFirst (driverIdP did) (driverBusySet oid)
            s.drivers).1).map (fun d : Driver => d.id)
            = s.drivers.map (fun d => d.id) :=
          map_updateFirst _ (fun x _ => by simp)
        have hkO := nodup_key_split (fun o : Order => o.id) (hl ▸ hnO)
        have hkD := nodup_key_split (fun d : Driver => d.id) (hdl ▸ hnD)
        have hfsy : s.orders.find? (orderIdP oid) = some y := by
          rw [hl]
          exact find?_append_cons_pos
            (fun x hx => by
              have := hkO.1 x hx
              simp only [orderIdP, decide_eq_false_iff_not]
              intro hxe
              exact this (hxe.trans hyid.1.symm))
            (by simp [orderIdP, hyid.1])
        refine ⟨?_, ?_, ?_, ?_, ?_⟩
        · rw [hso, hmapO]; exact hnO
        · rw [hsd, hmapD]; exact hnD
        · intro o ho
          rw [hso] at ho
          exact Nat.lt_succ_of_lt
            (bound_of_map_key_eq (fun i => i < now) hmapO hbO o ho)
        · intro d hd
          rw [hsd] at hd
          exact Nat.lt_succ_of_lt
            (bound_of_map_key_eq (fun i => i < now) hmapD hbD d hd)
        · intro d' hd'
          rw [hsd, hdu] at hd'
          have hordeq : (assign_order_to_driver s now oid did).2.orders
              = l₁ ++ assignSet did d0.name now y :: l₂ := by rw [hso, hu]
          rcases List.mem_append.mp hd' with hmem | hmem
          case _ =>
            -- old driver in the prefix
            have hold : d' ∈ s.drivers := by
              rw [hdl]; exact List.mem_append_left _ hmem
            have hdiff : d'.id ≠ d0.id := hkD.1 d' hmem
            cases hc : d'.current_order_id with
            | none =>
              exact (driverInvB_none_iff hc).mpr
                ((driverInvB_none_iff hc).mp (hinv d' hold))
            | some oid3 =>
              obtain ⟨hbusy, o', hf, hdrv, hact⟩ :=
                (driverInvB_some_iff hc).mp (hinv d' hold)
              by_cases hoo : oid3 = oid
              · subst hoo
                have : o' = y := Option.some.inj (hf.symm.trans hfsy)
                subst this
                rw [hyid.2] at hact
                exact absurd hact (by decide)
              · refine (driverInvB_some_iff hc).mpr ⟨hbusy, o', ?_, hdrv, hact⟩
                rw [hordeq, find?_append_cons_of_neg
                  (by simp only [orderIdP, assignSet_id, decide_eq_false_iff_not]
                      intro hxe; exact hoo (hxe.symm.trans hyid.1))
                  (by simp only [orderIdP, decide_eq_false_iff_not]
                      intro hxe; exact hoo (hxe.symm.trans hyid.1))]
                rw [← hl]
                exact hf
          case _ =>
            rcases List.mem_cons.mp hmem with rfl | hmem2
            · -- the busied driver
              refine (driverInvB_some_iff rfl).mpr
                ⟨rfl, assignSet did d0.name now y, ?_, ?_, rfl⟩
              · rw [hordeq]
                exact find?_append_cons_pos
                  (fun x hx => by
                    have := hkO.1 x hx
                    simp only [orderIdP, decide_eq_false_iff_not]
                    intro hxe
                    exact this (hxe.trans hyid.1.symm))
                  (by simp [orderIdP, hyid.1])
              · show some did = some (driverBusySet oid d0).id
                rw [show (driverBusySet oid d0).id = d0.id from rfl, hd0id]
            · -- old driver in the suffix
              have hold : d' ∈ s.drivers := by
                rw [hdl]
                exact List.mem_append_right _ (List.mem_cons_of_mem _ hmem2)
              have hdiff : d'.id ≠ d0.id := hkD.2 d' hmem2
              cases hc : d'.current_order_id with
              | none =>
                exact (driverInvB_none_iff hc).mpr
                  ((driverInvB_none_iff hc).mp (hinv d' hold))
              | some oid3 =>
                obtain ⟨hbusy, o', hf, hdrv, hact⟩ :=
                  (driverInvB_some_iff hc).mp (hinv d' hold)
                by_cases hoo : oid3 = oid
                · subst hoo
                  have : o' = y := Option.some.inj (hf.symm.trans hfsy)
                  subst this
                  rw [hyid.2] at hact
                  exact absurd hact (by decide)
                · refine (driverInvB_some_iff hc).mpr ⟨hbusy, o', ?_, hdrv, hact⟩
                  rw [hordeq, find?_append_cons_of_neg
                    (by simp only [orderIdP, assignSet_id, decide_eq_false_iff_not]
                        intro hxe; exact hoo (hxe.symm.trans hyid.1))
                    (by simp only [orderIdP, decide_eq_false_iff_not]
                        intro hxe; exact hoo (hxe.symm.trans hyid.1))]
                  rw [← hl]
                  exact hf
  | updateStatus oid st =>
    have hopst : statusHasDriver st = true := by simpa [c4OpOk] using hop
    simp only [applyOp]
    have hOrd := update_order_status_orders s now oid st
    have hDrv := update_order_status_drivers s now oid st
    have hmapO : (update_order_status s now oid st).2.orders.map
        (fun o : Order => o.id) = s.orders.map (fun o => o.id) := by
      rw [hOrd]
      by_cases hr : (updateFirst (orderIdP oid) (statusSet st now) s.orders).2 = 0
      · rw [if_pos hr]
      · rw [if_neg hr]
        exact map_updateFirst _ (fun x _ => by simp)
    have hmapD : (update_order_status s now oid st).2.drivers.map
        (fun d : Driver => d.id) = s.drivers.map (fun d => d.id) := by
      rw [hDrv]
      by_cases hst : st = OrderStatus.delivered
      · rw [if_pos hst]
        cases s.orders.find? (orderIdP oid) with
        | none => rfl
        | some o2 =>
          cases hdid2 : o2.driver_id with
          | none => simp [hdid2]
          | some did2 =>
            simp only [hdid2]
            exact map_updateFirst _ (fun x _ => by simp)
      · rw [if_neg hst]
    refine ⟨?_, ?_, ?_, ?_, ?_⟩
    · rw [hmapO]; exact hnO
    · rw [hmapD]; exact hnD
    · exact fun o ho => Nat.lt_succ_of_lt
        (bound_of_map_key_eq (fun i => i < now) hmapO hbO o ho)
    · exact fun d hd => Nat.lt_succ_of_lt
        (bound_of_map_key_eq (fun i => i < now) hmapD hbD d hd)
    · cases hfy : s.orders.find? (orderIdP oid) with
      | none =>
        have hr0 := updateFirst_of_find?_eq_none (f := statusSet st now) hfy
        have hO : (update_order_status s now oid st).2.orders = s.orders := by
          rw [hOrd, hr0]
          simp
        have hD : (update_order_status s now oid st).2.drivers = s.drivers := by
          rw [hDrv]
          by_cases hst : st = OrderStatus.delivered
          · rw [if_pos hst, hfy]
          · rw [if_neg hst]
        intro d' hd'
        rw [hD] at hd'
        rw [hO]
        exact hinv d' hd'
      | some y =>
        obtain ⟨l₁, l₂, hl, hpre, hyq, hu, hmr⟩ :=
          updateFirst_split (statusSet st now) hfy
        have hyid : y.id = oid := by simpa [orderIdP] using hyq
        have hfne : ∀ oid3, oid3 ≠ oid →
            (update_order_status s now oid st).2.orders.find? (orderIdP oid3)
              = s.orders.find? (orderIdP oid3) := by
          intro oid3 hne3
          rw [hOrd]
          by_cases hr : (updateFirst (orderIdP oid) (statusSet st now) s.orders).2 = 0
          · rw [if_pos hr]
          · rw [if_neg hr, hu, hl]
            exact find?_append_cons_of_neg
              (by simp only [orderIdP, statusSet_id, decide_eq_false_iff_not]
                  intro hxe; exact hne3 (hxe.symm.trans hyid))
              (by simp only [orderIdP, decide_eq_false_iff_not]
                  intro hxe; exact hne3 (hxe.symm.trans hyid))
        have hfeq : ∃ z, (update_order_status s now oid st).2.orders.find?
            (orderIdP oid) = some z ∧ z.driver_id = y.driver_id ∧
            z.status = st := by
          by_cases hr : (updateFirst (orderIdP oid) (statusSet st now) s.orders).2 = 0
          · have hyy : statusSet st now y = y := by
              rw [hmr] at hr
              by_cases he : statusSet st now y = y
              · exact he
              · rw [if_neg he] at hr
                simp at hr
            refine ⟨y, ?_, rfl, ?_⟩
            · rw [hOrd, if_pos hr]
              exact hfy
            · have hcs := congrArg Order.status hyy
              rw [statusSet_status] at hcs
              exact hcs.symm
          · refine ⟨statusSet st now y, ?_, by simp, by simp⟩
            rw [hOrd, if_neg hr, hu]
            exact find?_append_cons_pos (fun x hx => hpre x hx)
              (by simp [orderIdP, hyid])
        obtain ⟨z, hfz, hzdrv, hzst⟩ := hfeq
        by_cases hst : st = OrderStatus.delivered
        · subst hst
          cases hdidy : y.driver_id with
          | none =>
            have hD : (update_order_status s now oid OrderStatus.delivered).2.drivers
                = s.drivers := by
              rw [hDrv]
              simp [hfy, hdidy]
            intro d' hd'
            rw [hD] at hd'
            cases hc : d'.current_order_id with
            | none =>
              exact (driverInvB_none_iff hc).mpr
                ((driverInvB_none_iff hc).mp (hinv d' hd'))
            | some oid3 =>
              obtain ⟨hbusy, o', hf, hdrv, hact⟩ :=
                (driverInvB_some_iff hc).mp (hinv d' hd')
              by_cases hoo : oid3 = oid
              · subst hoo
                have heq : o' = y := Option.some.inj (hf.symm.trans hfy)
                subst heq
                rw [hdidy] at hdrv
                exact Option.noConfusion hdrv
              · exact (driverInvB_some_iff hc).mpr
                  ⟨hbusy, o', by rw [hfne oid3 hoo]; exact hf, hdrv, hact⟩
          | some did0 =>
            cases hfd : s.drivers.find? (driverIdP did0) with
            | none =>
              have hD : (update_order_status s now oid OrderStatus.delivered).2.drivers
                  = s.drivers := by
                rw [hDrv]
                simp [hfy, hdidy,
                  updateFirst_of_find?_eq_none (f := driverFreeSet) hfd]
              intro d' hd'
              rw [hD] at hd'
              cases hc : d'.current_order_id with
              | none =>
                exact (driverInvB_none_iff hc).mpr
                  ((driverInvB_none_iff hc).mp (hinv d' hd'))
              | some oid3 =>
                obtain ⟨hbusy, o', hf, hdrv, hact⟩ :=
                  (driverInvB_some_iff hc).mp (hinv d' hd')
                by_cases hoo : oid3 = oid
                · subst hoo
                  have heq : o' = y := Option.some.inj (hf.symm.trans hfy)
                  subst heq
                  rw [hdidy] at hdrv
                  have hid : did0 = d'.id := Option.some.inj hdrv
                  have := List.find?_eq_none.mp hfd d' hd'
                  exact absurd (by simp [driverIdP, hid] : driverIdP did0 d' = true)
                    (by simpa using this)
                · exact (driverInvB_some_iff hc).mpr
                    ⟨hbusy, o', by rw [hfne oid3 hoo]; exact hf, hdrv, hact⟩
            | some d0 =>
              have hd0id : d0.id = did0 := by
                simpa [driverIdP] using List.find?_some hfd
              obtain ⟨d₁, d₂, hdl, hdpre, hdy2, hdu, _⟩ :=
                updateFirst_split driverFreeSet hfd
              have hD : (update_order_status s now oid OrderStatus.delivered).2.drivers
                  = d₁ ++ driverFreeSet d0 :: d₂ := by
                rw [hDrv]
                simp [hfy, hdidy, hdu]
              have hkD := nodup_key_split (fun d : Driver => d.id) (hdl ▸ hnD)
              intro d' hd'
              rw [hD] at hd'
              rcases List.mem_append.mp hd' with hmem | hmem
              · have hold : d' ∈ s.drivers := by
                  rw [hdl]
                  exact List.mem_append_left _ hmem
                have hdiff : d'.id ≠ d0.id := hkD.1 d' hmem
                cases hc : d'.current_order_id with
                | none =>
                  exact (driverInvB_none_iff hc).mpr
                    ((driverInvB_none_iff hc).mp (hinv d' hold))
                | some oid3 =>
                  obtain ⟨hbusy, o', hf, hdrv, hact⟩ :=
                    (driverInvB_some_iff hc).mp (hinv d' hold)
                  by_cases hoo : oid3 = oid
                  · subst hoo
                    have heq : o' = y := Option.some.inj (hf.symm.trans hfy)
                    subst heq
                    rw [hdidy] at hdrv
                    have hid : did0 = d'.id := Option.some.inj hdrv
                    exact absurd (hid.symm.trans hd0id.symm) hdiff
                  · exact (driverInvB_some_iff hc).mpr
                      ⟨hbusy, o', by rw [hfne oid3 hoo]; exact hf, hdrv, hact⟩
              · rcases List.mem_cons.mp hmem with rfl | hmem2
                · exact (driverInvB_none_iff rfl).mpr
                    (fun hcon => DriverStatus.noConfusion hcon)
                · have hold : d' ∈ s.drivers := by
                    rw [hdl]
                    exact List.mem_append_right _ (List.mem_cons_of_mem _ hmem2)
                  have hdiff : d'.id ≠ d0.id := hkD.2 d' hmem2
                  cases hc : d'.current_order_id with
                  | none =>
                    exact (driverInvB_none_iff hc).mpr
                      ((driverInvB_none_iff hc).mp (hinv d' hold))
                  | some oid3 =>
                    obtain ⟨hbusy, o', hf, hdrv, hact⟩ :=
                      (driverInvB_some_iff hc).mp (hinv d' hold)
                    by_cases hoo : oid3 = oid
                    · subst hoo
                      have heq : o' = y := Option.some.inj (hf.symm.trans hfy)
                      subst heq
                      rw [hdidy] at hdrv
                      have hid : did0 = d'.id := Option.some.inj hdrv
                      exact absurd (hid.symm.trans hd0id.symm) hdiff
                    · exact (driverInvB_some_iff hc).mpr
                        ⟨hbusy, o', by rw [hfne oid3 hoo]; exact hf, hdrv, hact⟩
        · have hactst : activeStatus st = true := by
            cases st <;> simp_all [statusHasDriver, activeStatus]
          have hD : (update_order_status s now oid st).2.drivers = s.drivers := by
            rw [hDrv, if_neg hst]
          intro d' hd'
          rw [hD] at hd'
          cases hc : d'.current_order_id with
          | none =>
            exact (driverInvB_none_iff hc).mpr
              ((driverInvB_none_iff hc).mp (hinv d' hd'))
          | some oid3 =>
            obtain ⟨hbusy, o', hf, hdrv, hact⟩ :=
              (driverInvB_some_iff hc).mp (hinv d' hd')
            by_cases hoo : oid3 = oid
            · subst hoo
              have heq : o' = y := Option.some.inj (hf.symm.trans hfy)
              subst heq
              exact (driverInvB_some_iff hc).mpr ⟨hbusy, z, hfz,
                by rw [hzdrv]; exact hdrv, by rw [hzst]; exact hactst⟩
            · exact (driverInvB_some_iff hc).mpr
                ⟨hbusy, o', by rw [hfne oid3 hoo]; exact hf, hdrv, hact⟩



/-- The C4 induction invariant is preserved along admissible sequences. -/
theorem c4Aux_runFrom (ops : List Op) : ∀ s now, C4Aux s now →
    ops.all c4OpOk = true → ∃ m, C4Aux (runFrom s now ops) m := by
  induction ops with
  | nil => intro s now h _; exact ⟨now, h⟩
  | cons op ops ih =>
    intro s now h hl
    rw [List.all_cons, Bool.and_eq_true] at hl
    exact ih (applyOp s now op) (now + 1) (c4Aux_applyOp h hl.1) hl.2

/-- C4 (amended): starting from an empty store, after any sequence of
operations avoiding the raw driver-status endpoint and using only
driver-carrying targets in `update_order_status`, every driver satisfies:
`current_order_id` is set iff the driver is `busy`, and then the referenced
order exists, has this driver's id in `driver_id`, and is in
`{assigned, picked_up, in_transit}`. -/
theorem C4_driver_invariant_preserved (ops : List Op) (h : ops.all c4OpOk = true) :
    storeDriverInv (run ops) := by
  obtain ⟨m, hm⟩ := c4Aux_runFrom ops Store.empty 0
    ⟨by simp [Store.empty], by simp [Store.empty],
     fun o ho => by simp [Store.empty] at ho,
     fun d hd => by simp [Store.empty] at hd,
     fun d hd => by simp [Store.empty] at hd⟩ h
  exact hm.2.2.2.2

/-- C4 (counterexample to the claim as stated): the invariant does not
survive every operation sequence — cancelling an assigned order leaves its
driver `busy` with `current_order_id` still pointing at an order whose
status (`cancelled`) is outside `{assigned, picked_up, in_transit}`. -/
theorem C4_driver_invariant_counterexample : ¬ storeDriverInv
    (run [Op.createDriver rdSample, Op.createOrder roSample, Op.assign 1 0,
          Op.updateStatus 1 OrderStatus.cancelled]) := by
  unfold storeDriverInv
  decide

/-- An admissible trace for C4 covering the full lifecycle. -/
def c4SampleOps : List Op :=
  [Op.createDriver rdSample, Op.createOrder roSample, Op.assign 1 0,
   Op.updateStatus 1 OrderStatus.picked_up,
   Op.updateStatus 1 OrderStatus.in_transit,
   Op.updateStatus 1 OrderStatus.delivered]

/-- Witness for C4 (amended): the lifecycle trace is admissible and the
resulting store satisfies the driver-side invariant. -/
theorem C4_driver_invariant_preserved_witness :
    c4SampleOps.all c4OpOk = true ∧ storeDriverInv (run c4SampleOps) :=
  ⟨by decide, C4_driver_invariant_preserved c4SampleOps (by decide)⟩


end FoodDel
